import Mathlib

/-!
Verification development for the monthly bank statement batch pipeline
(`bhfl_gold.py`).  The pipeline loads partitioned columnar transaction data,
renders a per-customer statement document with a summary block and an
itemized transaction table, password-protects it, uploads it and emails it.

The embedding below follows the source file closely:

* a pandas DataFrame is a `Table`: a list of column names plus a list of
  rows, each row an association list from column name to `Cell`;
* numeric cells are rationals (the source works with float64; every value
  the claims exercise is an exact decimal, so `Rat` is used, with exact
  arithmetic standing in for floating point within tolerance);
* transaction timestamps are represented as ISO `YYYY-MM-DD` strings
  (`Cell.str`), the form the aggregator produces: for such strings the
  pandas datetime parse followed by `strftime` with the `Y-m-d` format is
  the identity, and chronological order coincides with lexicographic order;
* fallible steps return `Except String`; external effects (object store,
  mail, encryption library) are environment parameters whose outcomes are
  given as `Except` values.

String primitives are re-implemented over `List Char` so that all
definitions evaluate inside the kernel.
-/

namespace BhflGold

/-- Value held in one DataFrame cell: a number, a string, or a missing
value (NaN / None, which pandas treats as null). -/
inductive Cell where
  | num (q : ℚ)
  | str (s : String)
  | null
  deriving DecidableEq

/-- One DataFrame row: an association list from column name to cell. -/
abbrev Row := List (String × Cell)

/-- A DataFrame: column names plus rows. -/
structure Table where
  cols : List String
  rows : List Row
  deriving DecidableEq

/-- The `pd.DataFrame()` value returned for a customer with no data. -/
def emptyTable : Table := { cols := [], rows := [] }

/-- Cell of row `r` in column `c`, with default `d` when the label is
absent (the pandas `row.get(c, d)` access). -/
def rowGetD (r : Row) (c : String) (d : Cell) : Cell :=
  match r.find? (fun p => p.1 == c) with
  | some p => p.2
  | none => d

/-- Cell of row `r` in column `c`; absent labels read as null. -/
def rowGet (r : Row) (c : String) : Cell :=
  rowGetD r c Cell.null

/-- Column assignment `df[c] = v` restricted to one row: the new binding
shadows any previous one. -/
def rowSet (r : Row) (c : String) (v : Cell) : Row :=
  (c, v) :: r.filter (fun p => p.1 != c)

/-! Column-name constants, from the `COLS` mapping in the source. -/

def COLS_name : String := "first_name"
def COLS_email : String := "email_id"
def COLS_phone : String := "phone_no"
def COLS_acct : String := "account_id"
def COLS_date : String := "transaction_date"
def COLS_desc : String := "description"
def COLS_amt : String := "amount"
def COLS_bal : String := "availablebalance"

/-! Kernel-friendly string primitives (Python `str` operations). -/

/-- Whitespace trim on both ends (`str.strip()`). -/
def pyStrip (s : String) : String :=
  String.mk (((s.data.dropWhile Char.isWhitespace).reverse.dropWhile Char.isWhitespace).reverse)

/-- Lower-casing (`str.lower()`). -/
def pyLower (s : String) : String :=
  String.mk (s.data.map Char.toLower)

/-- Python slice `s[-n:]`: the last `min n (length s)` characters. -/
def pyLast (n : Nat) (s : String) : String :=
  String.mk (s.data.drop (s.data.length - n))

/-- Python slice `s[:n]`: the first `min n (length s)` characters. -/
def pyTake (n : Nat) (s : String) : String :=
  String.mk (s.data.take n)

/-- Membership test `ch in s` for a single character. -/
def pyHasChar (s : String) (ch : Char) : Bool :=
  s.data.any (fun a => a == ch)

/-- Lexicographic comparison of character lists. -/
def charListLe : List Char → List Char → Bool
  | [], _ => true
  | _ :: _, [] => false
  | a :: as, b :: bs => if a = b then charListLe as bs else decide (a < b)

/-- Lexicographic string order (the order of string-typed sort keys). -/
def strLeB (s t : String) : Bool :=
  charListLe s.data t.data

/-! Numeric parsing and formatting. -/

/-- Value of a digit list read in base ten. -/
def digitsToNat (cs : List Char) : Nat :=
  cs.foldl (fun a c => 10 * a + (c.toNat - 48)) 0

/-- Parse of a decimal literal by Python `float`: optional surrounding
whitespace, optional sign, an integer part and an optional fractional part,
with at least one digit.  (Exponent, infinity and nan spellings are never
produced by the data the claims range over and are left out.) -/
def pyFloat? (s : String) : Option ℚ :=
  let t := (pyStrip s).data
  let body : ℤ × List Char :=
    match t with
    | '-' :: r => (-1, r)
    | '+' :: r => (1, r)
    | _ => (1, t)
  match body.2.splitOn '.' with
  | [ip] =>
      if ip ≠ [] ∧ ip.all Char.isDigit then
        some ((body.1 * (digitsToNat ip : ℤ) : ℤ) : ℚ)
      else none
  | [ip, fp] =>
      if (ip ≠ [] ∨ fp ≠ []) ∧ ip.all Char.isDigit ∧ fp.all Char.isDigit then
        some (((body.1 * ((digitsToNat ip : ℤ) * 10 ^ fp.length + (digitsToNat fp : ℤ)) : ℤ) : ℚ) /
          ((10 ^ fp.length : ℤ) : ℚ))
      else none
  | _ => none

/-- Numeric coercion of one cell, `pd.to_numeric(errors="coerce")`:
numbers pass through, numeric strings parse, everything else becomes
missing (`none`, the NaN that `fillna(0)` later replaces). -/
def toNumeric? : Cell → Option ℚ
  | Cell.num q => some q
  | Cell.str s => pyFloat? s
  | Cell.null => none

/-- Python `str()` of a cell value.  Floats print with a trailing `.0`
when integral; the fractional branch is never reached by the data the
claims range over. -/
def cellToStr : Cell → String
  | Cell.str s => s
  | Cell.null => "nan"
  | Cell.num q =>
      if q.den = 1 then
        (if q.num < 0 then "-" else "") ++ Nat.repr q.num.natAbs ++ ".0"
      else
        (if q.num < 0 then "-" else "") ++ Nat.repr q.num.natAbs ++ "/" ++ Nat.repr q.den

/-- Python truthiness of a cell value: empty string and numeric zero are
falsy; NaN is truthy. -/
def cellTruthy : Cell → Bool
  | Cell.str s => s ≠ ""
  | Cell.num q => q ≠ 0
  | Cell.null => true

/-- Number of cents after round-half-to-even at two decimals, computed on
the exact rational `q` (the rounding the `:,.2f` format applies). -/
def centsHalfEven (q : ℚ) : ℤ :=
  let n := 100 * q.num
  let d : ℤ := (q.den : ℤ)
  let f := Int.fdiv n d
  let r := n - f * d
  if 2 * r < d then f
  else if d < 2 * r then f + 1
  else if f % 2 = 0 then f else f + 1

/-- Digit grouping: a comma after every three characters of the reversed
digit list, when more digits follow. -/
def commaRev : List Char → List Char
  | a :: b :: c :: d :: rest => a :: b :: c :: ',' :: commaRev (d :: rest)
  | l => l

/-- Decimal rendering of a natural number with thousands separators. -/
def withCommas (n : Nat) : String :=
  String.mk ((commaRev (Nat.repr n).data.reverse).reverse)

/-- Two-digit zero-padded rendering of a cent count below 100. -/
def twoPad (n : Nat) : String :=
  if n < 10 then "0" ++ Nat.repr n else Nat.repr n

/-- Rendering of a rational by the format `:,.2f`: thousands separators
and exactly two decimals. -/
def formatQ2 (q : ℚ) : String :=
  let cents := centsHalfEven q
  let a := cents.natAbs
  (if cents < 0 then "-" else "") ++ withCommas (a / 100) ++ "." ++ twoPad (a % 100)

/-- Source `format_currency`: format `float(x)` as `:,.2f`, falling back
to `str(x)` when the conversion raises. -/
def format_currency (c : Cell) : String :=
  match c with
  | Cell.num q => formatQ2 q
  | Cell.str s =>
      match pyFloat? s with
      | some q => formatQ2 q
      | none => s
  | Cell.null => "nan"

/-- Source `password_for_customer`: last 4 characters of the stripped
phone field when the field is present, non-null, non-empty and at least 4
characters long; otherwise the last 4 characters of the customer id. -/
def password_for_customer (row : Row) (cust_id : String) : String :=
  let phone : String :=
    match row.find? (fun p => p.1 == COLS_phone) with
    | some p => if p.2 = Cell.null then "" else pyStrip (cellToStr p.2)
    | none => ""
  if (phone != "") && decide (4 ≤ phone.length) then pyLast 4 phone
  else pyLast 4 cust_id

/-! Sorting (`DataFrame.sort_values`). -/

/-- Order on sort-key cells.  Numbers compare numerically and strings
lexicographically (for the ISO date strings the aggregator produces this
is chronological order); missing values sort last, as pandas places NaT
at the end.  A mixed numeric and string date column would make pandas
raise and does not occur in the data the claims range over. -/
def dateLe : Cell → Cell → Bool
  | Cell.num p, Cell.num q => decide (p ≤ q)
  | Cell.num _, Cell.str _ => true
  | Cell.num _, Cell.null => true
  | Cell.str s, Cell.str t => strLeB s t
  | Cell.str _, Cell.num _ => false
  | Cell.str _, Cell.null => true
  | Cell.null, Cell.null => true
  | Cell.null, Cell.num _ => false
  | Cell.null, Cell.str _ => false

/-- Insertion of a row into a list sorted on column `c`. -/
def insertRow (c : String) (r : Row) : List Row → List Row
  | [] => [r]
  | x :: xs =>
      if dateLe (rowGet x c) (rowGet r c) then x :: insertRow c r xs
      else r :: x :: xs

/-- Sort of a row list by the cell in column `c`, ascending. -/
def sortRowsBy (c : String) : List Row → List Row
  | [] => []
  | r :: rs => insertRow c r (sortRowsBy c rs)

/-- Source `df.sort_values(c)`: a KeyError when the column is absent,
otherwise the rows ordered ascending by that column. -/
def sort_values (c : String) (t : Table) : Except String Table :=
  if c ∈ t.cols then Except.ok { t with rows := sortRowsBy c t.rows }
  else Except.error ("KeyError: " ++ c)

/-! Numeric coercion of whole columns (source lines 176-180). -/

/-- Effect on one row of the column assignment
`df[c] = pd.to_numeric(df[c], errors="coerce").fillna(0)`. -/
def coerceCellRow (c : String) (r : Row) : Row :=
  rowSet r c (Cell.num ((toNumeric? (rowGet r c)).getD 0))

/-- Coercion of column `c` of a table to numeric with NaN replaced by
zero; a no-op when the column is absent (the `in df.columns` guard). -/
def coerceColumn (c : String) (t : Table) : Table :=
  if c ∈ t.cols then { t with rows := t.rows.map (coerceCellRow c) } else t

/-- Numeric reading of a cell that has already been coerced. -/
def rowNumQ (r : Row) (c : String) : ℚ :=
  match rowGet r c with
  | Cell.num q => q
  | _ => 0

/-! Statement rendering. -/

/-- Customer metadata dict assembled by the orchestrator from the first
row (string cells in practice; missing fields default to empty). -/
structure CustMeta where
  cust_id : String
  name : Cell
  email : Cell
  phone : Cell
  acct : Cell
  period : String
  deriving DecidableEq

/-- Content of the rendered statement document that the claims observe:
the summary quantities, the formatted summary block and the itemized
transaction table (header row first). -/
structure Statement where
  meta : CustMeta
  total_credits : ℚ
  total_debits : ℚ
  closing_balance : Cell
  summary_rows : List (List String)
  table_rows : List (List String)
  deriving DecidableEq

/-- Itemized line for one (already coerced) row, source lines 203-207:
ISO date text (empty for a missing date), description truncated to 120
characters, and the two formatted monetary cells. -/
def renderItemRow (r : Row) : List String :=
  let date :=
    match rowGet r COLS_date with
    | Cell.null => ""
    | Cell.str s => s
    | Cell.num _ => ""
  let desc := pyTake 120 (cellToStr (rowGetD r COLS_desc (Cell.str "")))
  let amt := format_currency (rowGetD r COLS_amt (Cell.str ""))
  let bal := format_currency (rowGetD r COLS_bal (Cell.str ""))
  [date, desc, amt, bal]

/-- Header row of the itemized table. -/
def itemHeader : List String := ["Date", "Description", "Amount", "Balance"]

/-- Source line 182: sum of the coerced amounts that are at least zero
(zero when the amount column is absent). -/
def totalCreditsOf (t2 : Table) : ℚ :=
  if COLS_amt ∈ t2.cols then
    ((t2.rows.filter (fun r => decide (0 ≤ rowNumQ r COLS_amt))).map
      (fun r => rowNumQ r COLS_amt)).sum
  else 0

/-- Source line 183: sum of the coerced amounts that are negative, a
non-positive quantity (zero when the amount column is absent). -/
def totalDebitsOf (t2 : Table) : ℚ :=
  if COLS_amt ∈ t2.cols then
    ((t2.rows.filter (fun r => decide (rowNumQ r COLS_amt < 0))).map
      (fun r => rowNumQ r COLS_amt)).sum
  else 0

/-- Source line 184: balance cell of the last row in the given order
(`iloc[-1]`), or zero for an empty table or a missing balance column. -/
def closingOf (t2 : Table) : Cell :=
  match t2.rows.getLast? with
  | some r => if COLS_bal ∈ t2.cols then rowGet r COLS_bal else Cell.num 0
  | none => Cell.num 0

/-- Source `build_statement_pdf_bytes`, paired with the final value of
the DataFrame object the caller passed in.  Line 176 rebinds the local
name to `df_txns.copy()`, so the coercions write to the copy and the
caller object is returned unchanged (second component).  The summary is
computed before the itemized table; the date sort on line 202 raises a
KeyError when the date column is absent and the error propagates out of
the function. -/
def build_statement_pdf_full (cust_meta : CustMeta) (df_txns : Table) :
    Except String Statement × Table :=
  ((let df2 := coerceColumn COLS_bal (coerceColumn COLS_amt df_txns)
    let total_credits : ℚ := totalCreditsOf df2
    let total_debits : ℚ := totalDebitsOf df2
    let closing_balance : Cell := closingOf df2
    let summary :=
      [["Total Credits", format_currency (Cell.num total_credits)],
       ["Total Debits", format_currency (Cell.num |total_debits|)],
       ["Closing Balance", format_currency closing_balance]]
    match sort_values COLS_date df2 with
    | Except.error e => Except.error e
    | Except.ok sorted =>
        Except.ok
          { meta := cust_meta
            total_credits := total_credits
            total_debits := total_debits
            closing_balance := closing_balance
            summary_rows := summary
            table_rows := itemHeader :: sorted.rows.map renderItemRow }),
   df_txns)

/-- Source `build_statement_pdf_bytes`: the rendered statement (or the
propagated error). -/
def build_statement_pdf_bytes (cust_meta : CustMeta) (df_txns : Table) :
    Except String Statement :=
  (build_statement_pdf_full cust_meta df_txns).1

/-! Accessors used to state properties of a build outcome without forcing
its lazy fields. -/

/-- Whether the build returned normally. -/
def buildOk : Except String Statement → Bool
  | Except.ok _ => true
  | Except.error _ => false

/-- Total credits of a build outcome (zero for an error). -/
def stCredits : Except String Statement → ℚ
  | Except.ok st => st.total_credits
  | Except.error _ => 0

/-- Signed total debits of a build outcome (zero for an error). -/
def stDebits : Except String Statement → ℚ
  | Except.ok st => st.total_debits
  | Except.error _ => 0

/-- Closing balance cell of a build outcome. -/
def stClosing : Except String Statement → Cell
  | Except.ok st => st.closing_balance
  | Except.error _ => Cell.num 0

/-- Itemized table of a build outcome, including the header row. -/
def stTableRows : Except String Statement → List (List String)
  | Except.ok st => st.table_rows
  | Except.error _ => []

/-- Summary block of a build outcome. -/
def stSummaryRows : Except String Statement → List (List String)
  | Except.ok st => st.summary_rows
  | Except.error _ => []

/-! Fetch of one file (source `load_parquet_from_s3`, lines 82-87). -/

/-- Source `load_parquet_from_s3`, tracking the scratch-file lifecycle.
The temporary file is created with `delete=False`; the download and the
parse run inside the `with` block; `os.unlink` is the first statement
after the block.  The arguments give the outcomes of the two external
steps; the second component of the result records whether the unlink
statement was reached, i.e. whether the scratch file was deleted. -/
def load_parquet_from_s3 (download : Except String Unit) (parse : Except String Table) :
    Except String Table × Bool :=
  match download with
  | Except.error e => (Except.error e, false)
  | Except.ok _ =>
      match parse with
      | Except.error e => (Except.error e, false)
      | Except.ok df => (Except.ok df, true)

/-! Aggregation of one customer (source `assemble_customer_df`). -/

/-- Lower-casing of the column labels of one row, following the column
rename `df.columns = [c.lower() for c in df.columns]`. -/
def normalizeRow (r : Row) : Row :=
  r.map (fun p => (pyLower p.1, p.2))

/-- Union of column-name lists in first-appearance order, as
`pd.concat` unions columns. -/
def unionCols (a b : List String) : List String :=
  a ++ b.filter (fun c => decide (c ∉ a))

/-- Row-preserving concatenation of tables (`pd.concat(ignore_index)`). -/
def concatTables (ts : List Table) : Table :=
  { cols := (ts.map Table.cols).foldl unionCols []
    rows := (ts.map Table.rows).flatten }

/-- Shape test for the ISO `YYYY-MM-DD` date strings the partitioned
data carries. -/
def isIsoDateStr (s : String) : Bool :=
  match s.data with
  | [a, b, c, d, '-', e, f, '-', g, h] =>
      a.isDigit && b.isDigit && c.isDigit && d.isDigit &&
      e.isDigit && f.isDigit && g.isDigit && h.isDigit
  | _ => false

/-- Datetime parse of one date cell by `pd.to_datetime`: null (NaT) and
numeric (epoch) cells parse, and string cells parse when they have the
ISO date shape of the partitioned data — for those, the parse followed
by the later `strftime` rendering is the identity, so the cell is kept
as is; any other string makes the parse raise, and the exception is
uncaught inside the aggregator. -/
def toDatetimeCell (c : Cell) : Except String Cell :=
  match c with
  | Cell.null => Except.ok Cell.null
  | Cell.num q => Except.ok (Cell.num q)
  | Cell.str s =>
      if isIsoDateStr s then Except.ok (Cell.str s)
      else Except.error ("DateParseError: " ++ s)

/-- Parse of one row of the date column. -/
def parseDateRow (r : Row) : Except String Row :=
  (toDatetimeCell (rowGet r COLS_date)).map (fun c => rowSet r COLS_date c)

/-- Parse of the date column to timestamps when present (source
lines 105-106); an unparseable date raises out of the aggregator. -/
def parseDateColumn (t : Table) : Except String Table :=
  if COLS_date ∈ t.cols then
    (t.rows.mapM parseDateRow).map (fun rs => { t with rows := rs })
  else Except.ok t

/-- Source `assemble_customer_df` for one customer partition: given the
outcome of the file listing (the S3 call on line 90, which can raise)
and the load outcome of each key, return the merged, normalized table.
Zero keys, or all loads failing, give the empty table as a normal
(non-error) result; individual load failures are dropped; a listing
error or a date-parse error propagates out uncaught. -/
def assemble_customer_df (keys? : Except String (List String))
    (load : String → Except String Table) : Except String Table :=
  match keys? with
  | Except.error e => Except.error e
  | Except.ok keys =>
      if keys = [] then Except.ok emptyTable
      else
        let dfs := keys.filterMap (fun k => (load k).toOption)
        if dfs = [] then Except.ok emptyTable
        else
          let df := concatTables dfs
          let df2 := { df with cols := df.cols.map pyLower, rows := df.rows.map normalizeRow }
          parseDateColumn df2

/-! Period orchestrator (source `process_month`). -/

/-- Configured feature toggles, from the module constants. -/
def UPLOAD_TO_S3 : Bool := true

/-- Mail-sending toggle, from the module constants. -/
def SEND_VIA_SES : Bool := true

/-- Output path (the source constant holding `"emails-data"`). -/
def OUTPUT_S3_BASE : String := "emails-data"

/-- Deterministic output key for one period and customer (source
line 319). -/
def s3_key_for (month cust : String) : String :=
  OUTPUT_S3_BASE ++ "/month=" ++ month ++ "/" ++ cust ++ "_statement_" ++ month ++ ".pdf"

/-- Observable per-customer steps of one run, in order. -/
inductive Event where
  | skippedEmpty (cust : String)
  | buildFailed (cust : String)
  | uploaded (cust key : String)
  | uploadFailed (cust : String)
  | emailed (cust addr : String)
  | emailFailed (cust : String)
  | emailSkipped (cust : String)
  deriving DecidableEq

/-- Customer an event belongs to. -/
def Event.cust : Event → String
  | skippedEmpty c => c
  | buildFailed c => c
  | uploaded c _ => c
  | uploadFailed c => c
  | emailed c _ => c
  | emailFailed c => c
  | emailSkipped c => c

/-- Result of a run: the events of the customers that were processed, and
the uncaught exception that aborted the run, if any. -/
structure RunResult where
  events : List Event
  aborted : Option String
  deriving DecidableEq

/-- External collaborators of one run: the customer partitions listed
for the period, the outcome of the per-customer file listing (an S3 call
that can raise), and the outcomes of the object-store,
encryption-library and mail calls. -/
structure Env where
  customers : List String
  keysOf : String → Except String (List String)
  load : String → Except String Table
  encryptOutcome : String → String → Except String Unit
  uploadOutcome : String → Except String Unit
  emailOutcome : String → Except String Unit

/-- Truthiness of an `Except` outcome. -/
def excIsOk : Except String Unit → Bool
  | Except.ok _ => true
  | Except.error _ => false

/-- Metadata extracted from the first row (source lines 296-303). -/
def metaOfFirst (cust_id month : String) (first : Row) : CustMeta :=
  { cust_id := cust_id
    name := rowGetD first COLS_name (Cell.str "")
    email := rowGetD first COLS_email (Cell.str "")
    phone := rowGetD first COLS_phone (Cell.str "")
    acct := rowGetD first COLS_acct (Cell.str "")
    period := month }

/-- Recipient check (source line 329): the address cell is truthy and its
string form contains an at sign. -/
def emailPlausible (c : Cell) : Bool :=
  cellTruthy c && pyHasChar (cellToStr c) '@'

/-- Loop body of the orchestrator for one customer, source lines 287-343.
A build exception is caught and the customer skipped; upload and email
exceptions are caught at their own step; the assembly call on line 289
and the encryption call on line 316 sit outside every handler, so their
exceptions escape the body (the `Except.error` result). -/
def processOne (env : Env) (month cust_id : String) : Except String (List Event) :=
  match assemble_customer_df (env.keysOf cust_id) env.load with
  | Except.error e => Except.error e
  | Except.ok df =>
      if df.rows.isEmpty then Except.ok [Event.skippedEmpty cust_id]
      else
        let first := df.rows.headD []
        let cust_meta := metaOfFirst cust_id month first
        match build_statement_pdf_bytes cust_meta df with
        | Except.error _ => Except.ok [Event.buildFailed cust_id]
        | Except.ok _st =>
            let pwd := password_for_customer first cust_id
            match env.encryptOutcome cust_id pwd with
            | Except.error e => Except.error e
            | Except.ok _ =>
                let key := s3_key_for month cust_id
                let upEv :=
                  if UPLOAD_TO_S3 then
                    match env.uploadOutcome key with
                    | Except.ok _ => [Event.uploaded cust_id key]
                    | Except.error _ => [Event.uploadFailed cust_id]
                  else []
                let emEv :=
                  if SEND_VIA_SES && emailPlausible cust_meta.email then
                    match env.emailOutcome (cellToStr cust_meta.email) with
                    | Except.ok _ => [Event.emailed cust_id (cellToStr cust_meta.email)]
                    | Except.error _ => [Event.emailFailed cust_id]
                  else [Event.emailSkipped cust_id]
                Except.ok (upEv ++ emEv)

/-- The `for cust_id in customers` loop: an uncaught exception from the
body ends the run (the remaining customers are never reached), any other
outcome appends the events and continues. -/
def processCustomers (env : Env) (month : String) : List String → RunResult
  | [] => { events := [], aborted := none }
  | cust_id :: rest =>
      match processOne env month cust_id with
      | Except.error e => { events := [], aborted := some e }
      | Except.ok evs =>
          let r := processCustomers env month rest
          { events := evs ++ r.events, aborted := r.aborted }

/-- Source `process_month`: one pass over the customers listed for the
period. -/
def process_month (env : Env) (month : String) : RunResult :=
  processCustomers env month env.customers

/-! Definitions written from the wording of the specification, for the
refinement-style comparisons. -/

/-- Row with the maximum transaction date, the last such row on ties;
`none` for an empty list.  Modelled from the spec: the row whose balance
the summary is said to report. -/
def argmaxDateRow (l : List Row) : Option Row :=
  l.foldl
    (fun acc r =>
      match acc with
      | none => some r
      | some b => if dateLe (rowGet b COLS_date) (rowGet r COLS_date) then some r else some b)
    none

/-- Modelled from the spec: closing balance as the balance field of the
row with the maximum transaction date, zero for an empty table. -/
def closing_balance_spec (t : Table) : ℚ :=
  match argmaxDateRow t.rows with
  | some r => (toNumeric? (rowGet r COLS_bal)).getD 0
  | none => 0

/-- Sum of all (coerced, zero-filled) amounts of a table; zero when the
amount column is absent. -/
def sum_of_amounts (t : Table) : ℚ :=
  if COLS_amt ∈ t.cols then
    (t.rows.map (fun r => (toNumeric? (rowGet r COLS_amt)).getD 0)).sum
  else 0

/-! Concrete tables and environments used by the concrete theorems. -/

def metaX : CustMeta :=
  { cust_id := "C1", name := Cell.str "Alice", email := Cell.str "a@b.c"
    phone := Cell.str "1234567890", acct := Cell.str "ACC1", period := "2025-11" }

def tblUnsorted : Table :=
  { cols := [COLS_date, COLS_desc, COLS_amt, COLS_bal]
    rows :=
      [[(COLS_date, Cell.str "2025-11-02"), (COLS_desc, Cell.str "late"),
        (COLS_amt, Cell.num 300), (COLS_bal, Cell.num 100)],
       [(COLS_date, Cell.str "2025-11-01"), (COLS_desc, Cell.str "early"),
        (COLS_amt, Cell.num 200), (COLS_bal, Cell.num 50)]] }

def tblAbc : Table :=
  { cols := [COLS_date, COLS_desc, COLS_amt, COLS_bal]
    rows :=
      [[(COLS_date, Cell.str "2025-11-01"), (COLS_desc, Cell.str "x"),
        (COLS_amt, Cell.str "abc"), (COLS_bal, Cell.num 100)]] }

def srcTblC1 : Table :=
  { cols := ["transaction_date", "description", "amount", "availablebalance",
             "first_name", "email_id", "phone_no", "account_id"]
    rows :=
      [[("transaction_date", Cell.str "2025-11-01"), ("description", Cell.str "salary"),
        ("amount", Cell.num 500), ("availablebalance", Cell.num 1500),
        ("first_name", Cell.str "Alice"), ("email_id", Cell.str "alice@example.com"),
        ("phone_no", Cell.str "1234567890"), ("account_id", Cell.str "ACC1")],
       [("transaction_date", Cell.str "2025-11-02"), ("description", Cell.str "rent"),
        ("amount", Cell.num (-200)), ("availablebalance", Cell.num 1300)]] }

def envOk : Env :=
  { customers := ["C1"]
    keysOf := fun c =>
      if c == "C1" then Except.ok ["transactions/month=2025-11/cust_id=C1/part0.parquet"]
      else Except.ok []
    load := fun k => if k == "transactions/month=2025-11/cust_id=C1/part0.parquet"
        then Except.ok srcTblC1 else Except.error "NoSuchKey"
    encryptOutcome := fun _ _ => Except.ok ()
    uploadOutcome := fun _ => Except.ok ()
    emailOutcome := fun _ => Except.ok () }

def envEncFail : Env :=
  { envOk with
    customers := ["C1", "C2"]
    keysOf := fun _ => Except.ok ["transactions/month=2025-11/cust_id=C1/part0.parquet"]
    encryptOutcome := fun c _ => if c == "C1" then Except.error "DocumentError" else Except.ok () }

/-- Result accessor: whether a fetch or assembly outcome carries a
table. -/
def loadOk : Except String Table → Bool
  | Except.ok _ => true
  | Except.error _ => false

/-- Result accessor: the table of a fetch or assembly outcome (the empty
table for an error, which the success hypotheses exclude where it
matters). -/
def asmTable : Except String Table → Table
  | Except.ok t => t
  | Except.error _ => emptyTable

/-- Chronologically last row of `srcTblC1`. -/
def rowC1last : Row :=
  [("transaction_date", Cell.str "2025-11-02"), ("description", Cell.str "rent"),
   ("amount", Cell.num (-200)), ("availablebalance", Cell.num 1300)]

/-- The row of `tblAbc`, whose amount fails numeric coercion. -/
def rowAbc : Row :=
  [(COLS_date, Cell.str "2025-11-01"), (COLS_desc, Cell.str "x"),
   (COLS_amt, Cell.str "abc"), (COLS_bal, Cell.num 100)]

/-- The two-customer environment of `envEncFail` with the encryption
failure removed. -/
def envEncOk2 : Env :=
  { envEncFail with encryptOutcome := fun _ _ => Except.ok () }

/-- Environment with one customer whose single file fails to load. -/
def envNoFiles : Env :=
  { envOk with
    customers := ["CX"]
    keysOf := fun _ => Except.ok ["badkey"]
    load := fun _ => Except.error "FetchError" }

/-! Helper lemmas. -/

lemma find?_filter_ne (r : Row) (c c2 : String) (h : c ≠ c2) :
    (r.filter (fun p => p.1 != c2)).find? (fun p => p.1 == c) = r.find? (fun p => p.1 == c) := by
  induction r with
  | nil => rfl
  | cons hd tl ih =>
      by_cases h1 : hd.1 = c
      · have h2 : (hd.1 != c2) = true := by
          simp [bne, h1, h]
        simp [List.filter_cons, h2, List.find?_cons, h1, h]
      · by_cases h2 : hd.1 = c2
        · have h3 : (hd.1 != c2) = false := by simp [bne, h2]
          have h4 : (hd.1 == c) = false := by simp [h1]
          simp [List.filter_cons, h3, List.find?_cons, h4, ih]
        · have h3 : (hd.1 != c2) = true := by simp [bne, h2]
          have h4 : (hd.1 == c) = false := by simp [h1]
          simp [List.filter_cons, h3, List.find?_cons, h4, ih]

lemma rowGetD_rowSet_self (r : Row) (c : String) (v d : Cell) :
    rowGetD (rowSet r c v) c d = v := by
  simp [rowGetD, rowSet, List.find?_cons]

lemma rowGetD_rowSet_ne (r : Row) (c c2 : String) (v d : Cell) (h : c ≠ c2) :
    rowGetD (rowSet r c2 v) c d = rowGetD r c d := by
  have h2 : (c2 == c) = false := by
    simpa using Ne.symm h
  simp [rowGetD, rowSet, List.find?_cons, h2, find?_filter_ne r c c2 h]

lemma rowGet_rowSet_self (r : Row) (c : String) (v : Cell) :
    rowGet (rowSet r c v) c = v :=
  rowGetD_rowSet_self r c v Cell.null

lemma rowGet_rowSet_ne (r : Row) (c c2 : String) (v : Cell) (h : c ≠ c2) :
    rowGet (rowSet r c2 v) c = rowGet r c :=
  rowGetD_rowSet_ne r c c2 v Cell.null h

lemma charListLe_refl (l : List Char) : charListLe l l = true := by
  induction l with
  | nil => rfl
  | cons a t ih => simp [charListLe, ih]

lemma dateLe_refl (c : Cell) : dateLe c c = true := by
  cases c with
  | num q => simp [dateLe]
  | str s => simp [dateLe, strLeB, charListLe_refl]
  | null => rfl

lemma rel_getLast_of_pairwise {α : Type} {R : α → α → Prop} (hrefl : ∀ a, R a a) :
    ∀ (l : List α) (r : α), l.Pairwise R → l.getLast? = some r → ∀ x ∈ l, R x r := by
  intro l
  induction l with
  | nil => intro r _ hl; simp at hl
  | cons a t ih =>
      intro r hp hl x hx
      cases t with
      | nil =>
          simp [List.getLast?] at hl
          simp at hx
          rw [hx, ← hl]
          exact hrefl a
      | cons b t2 =>
          rw [List.getLast?_cons_cons] at hl
          have hp2 : (b :: t2).Pairwise R := hp.of_cons
          have hmem : r ∈ b :: t2 := by
            rcases List.mem_getLast?_eq_getLast (Option.mem_def.mpr hl) with ⟨hne, heq⟩
            rw [heq]
            exact List.getLast_mem hne
          rcases List.mem_cons.mp hx with hxa | hxt
          · rw [hxa]
            exact (List.pairwise_cons.mp hp).1 r hmem
          · exact ih r hp2 hl x hxt

lemma insertRow_perm (c : String) (r : Row) :
    ∀ l : List Row, (insertRow c r l).Perm (r :: l) := by
  intro l
  induction l with
  | nil => exact List.Perm.refl _
  | cons x xs ih =>
      simp only [insertRow]
      split
      · exact ((ih.cons x).trans (List.Perm.swap r x xs))
      · exact List.Perm.refl _

lemma sortRowsBy_perm (c : String) :
    ∀ l : List Row, (sortRowsBy c l).Perm l := by
  intro l
  induction l with
  | nil => exact List.Perm.refl _
  | cons r rs ih =>
      exact (insertRow_perm c r (sortRowsBy c rs)).trans (ih.cons r)

lemma sum_filter_split (f : Row → ℚ) (l : List Row) :
    ((l.filter (fun r => decide (0 ≤ f r))).map f).sum
      + ((l.filter (fun r => decide (f r < 0))).map f).sum = (l.map f).sum := by
  induction l with
  | nil => simp
  | cons a t ih =>
      by_cases h : 0 ≤ f a
      · have h2 : ¬ f a < 0 := not_lt.mpr h
        simp [List.filter_cons, h, h2]
        linarith [ih]
      · have h2 : f a < 0 := lt_of_not_ge h
        simp [List.filter_cons, h, h2]
        linarith [ih]

lemma coerceColumn_cols (c : String) (t : Table) : (coerceColumn c t).cols = t.cols := by
  unfold coerceColumn
  split <;> rfl

lemma excIsOk_iff (o : Except String Unit) : excIsOk o = true ↔ ∃ u, o = Except.ok u := by
  cases o <;> simp [excIsOk]

lemma processOne_events (env : Env) (month c : String) (evs : List Event)
    (h : processOne env month c = Except.ok evs) :
    evs ≠ [] ∧ ∀ e ∈ evs, e.cust = c := by
  simp only [processOne] at h
  split at h
  · exact absurd h (by simp)
  · rename_i df hdf
    split at h
    · injection h with h1
      subst h1
      simp [Event.cust]
    · split at h
      · injection h with h1
        subst h1
        simp [Event.cust]
      · split at h
        · exact absurd h (by simp)
        · cases hu : env.uploadOutcome (s3_key_for month c) <;>
            cases hcond : SEND_VIA_SES && emailPlausible (metaOfFirst c month
              (df.rows.headD [])).email <;>
            simp only [hu, hcond, UPLOAD_TO_S3] at h
          case ok.false _ =>
            injection h with h1
            subst h1
            simp [Event.cust]
          case ok.true _ =>
            cases hem : env.emailOutcome (cellToStr (metaOfFirst c month
                (df.rows.headD [])).email) <;>
              simp only [hem] at h <;>
              (injection h with h1; subst h1; simp [Event.cust])
          case error.false _ =>
            injection h with h1
            subst h1
            simp [Event.cust]
          case error.true _ =>
            cases hem : env.emailOutcome (cellToStr (metaOfFirst c month
                (df.rows.headD [])).email) <;>
              simp only [hem] at h <;>
              (injection h with h1; subst h1; simp [Event.cust])

lemma processOne_uploaded (env : Env) (month c : String) (evs : List Event)
    (h : processOne env month c = Except.ok evs) (c2 k : String)
    (hm : Event.uploaded c2 k ∈ evs) : c2 = c ∧ k = s3_key_for month c := by
  simp only [processOne] at h
  split at h
  · exact absurd h (by simp)
  · rename_i df hdf
    split at h
    · injection h with h1
      subst h1
      simp at hm
    · split at h
      · injection h with h1
        subst h1
        simp at hm
      · split at h
        · exact absurd h (by simp)
        · cases hu : env.uploadOutcome (s3_key_for month c) <;>
            cases hcond : SEND_VIA_SES && emailPlausible (metaOfFirst c month
              (df.rows.headD [])).email <;>
            simp only [hu, hcond, UPLOAD_TO_S3] at h
          case ok.false _ =>
            injection h with h1
            subst h1
            simp at hm
            exact ⟨hm.1, hm.2⟩
          case ok.true _ =>
            cases hem : env.emailOutcome (cellToStr (metaOfFirst c month
                (df.rows.headD [])).email) <;>
              simp only [hem] at h <;>
              (injection h with h1; subst h1; simp at hm; exact ⟨hm.1, hm.2⟩)
          case error.false _ =>
            injection h with h1
            subst h1
            simp at hm
          case error.true _ =>
            cases hem : env.emailOutcome (cellToStr (metaOfFirst c month
                (df.rows.headD [])).email) <;>
              simp only [hem] at h <;>
              (injection h with h1; subst h1; simp at hm)

lemma processOne_buildFailed (env : Env) (month cust : String)
    (hload : loadOk (assemble_customer_df (env.keysOf cust) env.load) = true)
    (hne : (asmTable (assemble_customer_df (env.keysOf cust) env.load)).rows.isEmpty = false)
    (hbf : buildOk (build_statement_pdf_bytes
        (metaOfFirst cust month
          ((asmTable (assemble_customer_df (env.keysOf cust) env.load)).rows.headD []))
        (asmTable (assemble_customer_df (env.keysOf cust) env.load))) = false) :
    processOne env month cust = Except.ok [Event.buildFailed cust] := by
  cases hA : assemble_customer_df (env.keysOf cust) env.load with
  | error e => rw [hA] at hload; simp [loadOk] at hload
  | ok df =>
      rw [hA] at hne hbf
      simp only [asmTable] at hne hbf
      cases hb : build_statement_pdf_bytes (metaOfFirst cust month (df.rows.headD [])) df with
      | error e2 => simp [processOne, hA, hne, hb, -List.headD_eq_head?_getD]
      | ok st => rw [hb] at hbf; simp [buildOk] at hbf

lemma processOne_encErr (env : Env) (month cust e : String)
    (hload : loadOk (assemble_customer_df (env.keysOf cust) env.load) = true)
    (hne : (asmTable (assemble_customer_df (env.keysOf cust) env.load)).rows.isEmpty = false)
    (hbok : buildOk (build_statement_pdf_bytes
        (metaOfFirst cust month
          ((asmTable (assemble_customer_df (env.keysOf cust) env.load)).rows.headD []))
        (asmTable (assemble_customer_df (env.keysOf cust) env.load))) = true)
    (henc : env.encryptOutcome cust (password_for_customer
        ((asmTable (assemble_customer_df (env.keysOf cust) env.load)).rows.headD []) cust)
      = Except.error e) :
    processOne env month cust = Except.error e := by
  cases hA : assemble_customer_df (env.keysOf cust) env.load with
  | error e2 => rw [hA] at hload; simp [loadOk] at hload
  | ok df =>
      rw [hA] at hne hbok henc
      simp only [asmTable] at hne hbok henc
      cases hb : build_statement_pdf_bytes (metaOfFirst cust month (df.rows.headD [])) df with
      | error e2 => rw [hb] at hbok; simp [buildOk] at hbok
      | ok st => simp [processOne, hA, hne, hb, henc, -List.headD_eq_head?_getD]

lemma processOne_encOk (env : Env) (month cust : String)
    (hload : loadOk (assemble_customer_df (env.keysOf cust) env.load) = true)
    (hne : (asmTable (assemble_customer_df (env.keysOf cust) env.load)).rows.isEmpty = false)
    (hbok : buildOk (build_statement_pdf_bytes
        (metaOfFirst cust month
          ((asmTable (assemble_customer_df (env.keysOf cust) env.load)).rows.headD []))
        (asmTable (assemble_customer_df (env.keysOf cust) env.load))) = true)
    (hencB : excIsOk (env.encryptOutcome cust (password_for_customer
        ((asmTable (assemble_customer_df (env.keysOf cust) env.load)).rows.headD []) cust)) = true) :
    ∃ evs, processOne env month cust = Except.ok evs := by
  cases hA : assemble_customer_df (env.keysOf cust) env.load with
  | error e2 => rw [hA] at hload; simp [loadOk] at hload
  | ok df =>
      rw [hA] at hne hbok hencB
      simp only [asmTable] at hne hbok hencB
      cases hb : build_statement_pdf_bytes (metaOfFirst cust month (df.rows.headD [])) df with
      | error e2 => rw [hb] at hbok; simp [buildOk] at hbok
      | ok st =>
          rcases (excIsOk_iff _).mp hencB with ⟨u, hu⟩
          rcases hev : processOne env month cust with e2 | evs
          · exfalso
            simp [processOne, hA, hne, hb, hu, -List.headD_eq_head?_getD] at hev
          · exact ⟨evs, rfl⟩

lemma processCustomers_uploaded (env : Env) (month : String) :
    ∀ (cs : List String) (c k : String),
      Event.uploaded c k ∈ (processCustomers env month cs).events → k = s3_key_for month c := by
  intro cs
  induction cs with
  | nil => intro c k h; simp [processCustomers] at h
  | cons c0 rest ih =>
      intro c k h
      cases hone : processOne env month c0 with
      | error e =>
          simp only [processCustomers, hone] at h
          simp at h
      | ok evs =>
          simp only [processCustomers, hone] at h
          rcases List.mem_append.mp h with h1 | h2
          · rcases processOne_uploaded env month c0 evs hone c k h1 with ⟨hc, hk⟩
            rw [hc]
            exact hk
          · exact ih c k h2

lemma list_sum_nonpos (l : List ℚ) (h : ∀ x ∈ l, x ≤ 0) : l.sum ≤ 0 := by
  induction l with
  | nil => simp
  | cons a t ih =>
      rw [List.sum_cons]
      exact add_nonpos (h a (List.mem_cons_self a t)) (ih fun x hx => h x (List.mem_cons_of_mem a hx))

lemma coerceColumn_rows_nil (c : String) (t : Table) (h : t.rows = []) :
    (coerceColumn c t).rows = [] := by
  unfold coerceColumn
  split <;> simp [h]

lemma sort_values_ok (t2 : Table) (h : COLS_date ∈ t2.cols) :
    sort_values COLS_date t2 = Except.ok { t2 with rows := sortRowsBy COLS_date t2.rows } := by
  simp [sort_values, h]

lemma build_ok_fields (m : CustMeta) (t : Table) (sorted : Table)
    (hs : sort_values COLS_date (coerceColumn COLS_bal (coerceColumn COLS_amt t)) = Except.ok sorted) :
    build_statement_pdf_bytes m t = Except.ok
      { meta := m
        total_credits := totalCreditsOf (coerceColumn COLS_bal (coerceColumn COLS_amt t))
        total_debits := totalDebitsOf (coerceColumn COLS_bal (coerceColumn COLS_amt t))
        closing_balance := closingOf (coerceColumn COLS_bal (coerceColumn COLS_amt t))
        summary_rows :=
          [["Total Credits",
            format_currency (Cell.num (totalCreditsOf (coerceColumn COLS_bal (coerceColumn COLS_amt t))))],
           ["Total Debits",
            format_currency (Cell.num |totalDebitsOf (coerceColumn COLS_bal (coerceColumn COLS_amt t))|)],
           ["Closing Balance",
            format_currency (closingOf (coerceColumn COLS_bal (coerceColumn COLS_amt t)))]]
        table_rows := itemHeader :: sorted.rows.map renderItemRow } := by
  simp only [build_statement_pdf_bytes, build_statement_pdf_full, hs]

lemma buildOk_date (m : CustMeta) (t : Table)
    (hok : buildOk (build_statement_pdf_bytes m t) = true) : COLS_date ∈ t.cols := by
  by_contra h
  have h2 : COLS_date ∉ (coerceColumn COLS_bal (coerceColumn COLS_amt t)).cols := by
    rw [coerceColumn_cols, coerceColumn_cols]
    exact h
  simp [build_statement_pdf_bytes, build_statement_pdf_full, sort_values, h2, buildOk] at hok

lemma df2_rows_both (t : Table) (hamt : COLS_amt ∈ t.cols) (hbal : COLS_bal ∈ t.cols) :
    (coerceColumn COLS_bal (coerceColumn COLS_amt t)).rows
      = t.rows.map (fun r => coerceCellRow COLS_bal (coerceCellRow COLS_amt r)) := by
  unfold coerceColumn
  simp [hamt, hbal]

lemma df2_rows_noamt (t : Table) (hamt : COLS_amt ∉ t.cols) :
    (coerceColumn COLS_bal (coerceColumn COLS_amt t)).rows
      = if COLS_bal ∈ t.cols then t.rows.map (coerceCellRow COLS_bal) else t.rows := by
  unfold coerceColumn
  simp [hamt]
  split <;> simp

lemma df2_rows_amtonly (t : Table) (hamt : COLS_amt ∈ t.cols) (hbal : COLS_bal ∉ t.cols) :
    (coerceColumn COLS_bal (coerceColumn COLS_amt t)).rows
      = t.rows.map (coerceCellRow COLS_amt) := by
  unfold coerceColumn
  simp [hamt, hbal]

lemma amt_ne_bal : COLS_amt ≠ COLS_bal := by decide

lemma amtQ_coerced_only (r : Row) :
    rowNumQ (coerceCellRow COLS_amt r) COLS_amt
      = (toNumeric? (rowGet r COLS_amt)).getD 0 := by
  unfold rowNumQ coerceCellRow
  rw [rowGet_rowSet_self]

lemma rowGet_coerce_bal_amt (r : Row) :
    rowGet (coerceCellRow COLS_bal (coerceCellRow COLS_amt r)) COLS_amt
      = Cell.num ((toNumeric? (rowGet r COLS_amt)).getD 0) := by
  unfold coerceCellRow
  rw [rowGet_rowSet_ne _ _ _ _ amt_ne_bal, rowGet_rowSet_self]

lemma amtQ_coerced_both (r : Row) :
    rowNumQ (coerceCellRow COLS_bal (coerceCellRow COLS_amt r)) COLS_amt
      = (toNumeric? (rowGet r COLS_amt)).getD 0 := by
  rw [rowNumQ, rowGet_coerce_bal_amt]

lemma balCell_coerced_both (r : Row) :
    rowGet (coerceCellRow COLS_bal (coerceCellRow COLS_amt r)) COLS_bal
      = Cell.num ((toNumeric? (rowGet r COLS_bal)).getD 0) := by
  unfold coerceCellRow
  rw [rowGet_rowSet_self, rowGet_rowSet_ne _ _ _ _ (Ne.symm amt_ne_bal)]

lemma balCell_coerced_only (r : Row) :
    rowGet (coerceCellRow COLS_bal r) COLS_bal
      = Cell.num ((toNumeric? (rowGet r COLS_bal)).getD 0) := by
  unfold coerceCellRow
  rw [rowGet_rowSet_self]

lemma credits_debits_split (t2 : Table) :
    totalCreditsOf t2 + totalDebitsOf t2
      = if COLS_amt ∈ t2.cols then (t2.rows.map (fun r => rowNumQ r COLS_amt)).sum else 0 := by
  unfold totalCreditsOf totalDebitsOf
  split
  · exact sum_filter_split (fun r => rowNumQ r COLS_amt) t2.rows
  · simp

lemma totalCredits_nonneg (t2 : Table) : 0 ≤ totalCreditsOf t2 := by
  unfold totalCreditsOf
  split
  · apply List.sum_nonneg
    intro x hx
    rcases List.mem_map.mp hx with ⟨r, hr, hxr⟩
    rcases List.mem_filter.mp hr with ⟨-, hd⟩
    rw [← hxr]
    exact of_decide_eq_true hd
  · exact le_refl 0

lemma totalDebits_nonpos (t2 : Table) : totalDebitsOf t2 ≤ 0 := by
  unfold totalDebitsOf
  split
  · apply list_sum_nonpos
    intro x hx
    rcases List.mem_map.mp hx with ⟨r, hr, hxr⟩
    rcases List.mem_filter.mp hr with ⟨-, hd⟩
    rw [← hxr]
    exact le_of_lt (of_decide_eq_true hd)
  · exact le_refl 0

lemma totals_sum_eq (t : Table) :
    totalCreditsOf (coerceColumn COLS_bal (coerceColumn COLS_amt t))
      + totalDebitsOf (coerceColumn COLS_bal (coerceColumn COLS_amt t))
      = sum_of_amounts t := by
  rw [credits_debits_split]
  rw [coerceColumn_cols, coerceColumn_cols]
  unfold sum_of_amounts
  by_cases hamt : COLS_amt ∈ t.cols
  · simp only [hamt, if_true]
    by_cases hbal : COLS_bal ∈ t.cols
    · rw [df2_rows_both t hamt hbal, List.map_map]
      congr 1
    · rw [df2_rows_amtonly t hamt hbal, List.map_map]
      congr 1
  · simp [hamt]

/-- Length of a Python tail slice. -/
lemma pyLast_length (n : Nat) (s : String) :
    (pyLast n s).length = s.length - (s.length - n) := by
  show (s.data.drop (s.data.length - n)).length = s.data.length - (s.data.length - n)
  exact List.length_drop _ _

lemma pyLast_length_le (n : Nat) (s : String) : (pyLast n s).length ≤ n := by
  rw [pyLast_length]
  omega

lemma pyLast_length_eq (n : Nat) (s : String) (h : n ≤ s.length) :
    (pyLast n s).length = n := by
  rw [pyLast_length]
  omega

/-- C1, counterexample.  On a table whose rows are not in date order the
summary reports the balance of the last row in input order (50), not the
balance of the row with the maximum transaction date (100). -/
theorem C1_counterexample :
    stClosing (build_statement_pdf_bytes metaX tblUnsorted) = Cell.num 50 ∧
    closing_balance_spec tblUnsorted = 100 ∧
    stClosing (build_statement_pdf_bytes metaX tblUnsorted)
      ≠ Cell.num (closing_balance_spec tblUnsorted) := by
  decide

/-- C1, amended: for every table whose rows are already in ascending date
order (the order the specification assumes), the closing balance of a
successful build is the coerced balance of the last row, which is a row
of maximum transaction date; for an empty table the closing balance is
zero. -/
theorem C1_amended (m : CustMeta) (t : Table)
    (hok : buildOk (build_statement_pdf_bytes m t) = true)
    (hsorted : t.rows.Pairwise
      (fun a b => dateLe (rowGet a COLS_date) (rowGet b COLS_date) = true)) :
    (t.rows = [] → stClosing (build_statement_pdf_bytes m t) = Cell.num 0) ∧
    (∀ r, t.rows.getLast? = some r → COLS_bal ∈ t.cols →
      stClosing (build_statement_pdf_bytes m t)
          = Cell.num ((toNumeric? (rowGet r COLS_bal)).getD 0) ∧
      ∀ x ∈ t.rows, dateLe (rowGet x COLS_date) (rowGet r COLS_date) = true) := by
  have hdate := buildOk_date m t hok
  have hs := sort_values_ok (coerceColumn COLS_bal (coerceColumn COLS_amt t))
    (by rw [coerceColumn_cols, coerceColumn_cols]; exact hdate)
  have hb := build_ok_fields m t _ hs
  constructor
  · intro hnil
    rw [hb]
    simp [stClosing, closingOf, coerceColumn_rows_nil _ _ (coerceColumn_rows_nil _ _ hnil)]
  · intro r hlast hbal
    constructor
    · rw [hb]
      simp only [stClosing, closingOf]
      by_cases hamt : COLS_amt ∈ t.cols
      · rw [df2_rows_both t hamt hbal, List.getLast?_map, hlast]
        simp [coerceColumn_cols, hbal, balCell_coerced_both]
      · rw [df2_rows_noamt t hamt]
        simp only [hbal, if_true]
        rw [List.getLast?_map, hlast]
        simp [coerceColumn_cols, hbal, balCell_coerced_only]
    · exact @rel_getLast_of_pairwise Row
        (fun a b => dateLe (rowGet a COLS_date) (rowGet b COLS_date) = true)
        (fun a => dateLe_refl (rowGet a COLS_date)) t.rows r hsorted hlast

/-- C1, witness at the sorted two-row table. -/
theorem C1_witness :
    stClosing (build_statement_pdf_bytes metaX srcTblC1)
        = Cell.num ((toNumeric? (rowGet rowC1last COLS_bal)).getD 0) ∧
    ∀ x ∈ srcTblC1.rows,
      dateLe (rowGet x COLS_date) (rowGet rowC1last COLS_date) = true :=
  (C1_amended metaX srcTblC1 (by decide) (by decide)).2 rowC1last (by decide) (by decide)

/-- C2, counterexample.  An amount of `"abc"` fails coercion and is
treated as zero in the summary, but the itemized row renders the
formatted zero `"0.00"`, not the original text `"abc"`: the coercion on
source lines 177-180 happens on the very frame the row loop iterates. -/
theorem C2_counterexample :
    toNumeric? (Cell.str "abc") = none ∧
    stTableRows (build_statement_pdf_bytes metaX tblAbc)
      = [itemHeader, ["2025-11-01", "x", "0.00", "100.00"]] ∧
    ("0.00" : String) ≠ "abc" := by
  decide

/-- C2, amended: a value failing coercion counts as zero in the summary,
and the itemized row renders the formatted zero `"0.00"` in place of the
original text; each itemized line is the rendering of the coerced row. -/
theorem C2_amended (m : CustMeta) (t : Table)
    (hok : buildOk (build_statement_pdf_bytes m t) = true)
    (hamt : COLS_amt ∈ t.cols) (hbal : COLS_bal ∈ t.cols) :
    (stTableRows (build_statement_pdf_bytes m t)).tail.Perm
        (t.rows.map (fun r => renderItemRow (coerceCellRow COLS_bal (coerceCellRow COLS_amt r)))) ∧
    (∀ r, toNumeric? (rowGet r COLS_amt) = none →
        (renderItemRow (coerceCellRow COLS_bal (coerceCellRow COLS_amt r)))[2]? = some "0.00") ∧
    stCredits (build_statement_pdf_bytes m t) + stDebits (build_statement_pdf_bytes m t)
      = sum_of_amounts t := by
  have hdate := buildOk_date m t hok
  have hs := sort_values_ok (coerceColumn COLS_bal (coerceColumn COLS_amt t))
    (by rw [coerceColumn_cols, coerceColumn_cols]; exact hdate)
  have hb := build_ok_fields m t _ hs
  refine ⟨?_, ?_, ?_⟩
  · rw [hb]
    simp only [stTableRows, List.tail_cons]
    have h2 : (coerceColumn COLS_bal (coerceColumn COLS_amt t)).rows.map renderItemRow
        = t.rows.map (fun r => renderItemRow (coerceCellRow COLS_bal (coerceCellRow COLS_amt r))) := by
      rw [df2_rows_both t hamt hbal, List.map_map]
      rfl
    exact h2 ▸ ((sortRowsBy_perm COLS_date _).map renderItemRow)
  · intro r hr
    have h1 : rowGetD (coerceCellRow COLS_bal (coerceCellRow COLS_amt r)) COLS_amt (Cell.str "")
        = Cell.num ((toNumeric? (rowGet r COLS_amt)).getD 0) := by
      unfold coerceCellRow
      rw [rowGetD_rowSet_ne _ _ _ _ _ amt_ne_bal, rowGetD_rowSet_self]
    simp only [renderItemRow, h1, hr, Option.getD_none, List.getElem?_cons_succ,
      List.getElem?_cons_zero]
    decide
  · rw [hb]
    simp only [stCredits, stDebits]
    exact totals_sum_eq t

/-- C2, witness at the concrete `"abc"` table. -/
theorem C2_witness :
    (stTableRows (build_statement_pdf_bytes metaX tblAbc)).tail.Perm
        (tblAbc.rows.map (fun r => renderItemRow (coerceCellRow COLS_bal (coerceCellRow COLS_amt r)))) ∧
    (renderItemRow (coerceCellRow COLS_bal (coerceCellRow COLS_amt rowAbc)))[2]? = some "0.00" :=
  ⟨(C2_amended metaX tblAbc (by decide) (by decide) (by decide)).1,
   (C2_amended metaX tblAbc (by decide) (by decide) (by decide)).2.1 rowAbc (by decide)⟩

/-- C3, counterexample.  For a zero-row, zero-column table the date sort
on source line 202 raises a KeyError, so the build does raise. -/
theorem C3_counterexample :
    buildOk (build_statement_pdf_bytes metaX emptyTable) = false ∧
    build_statement_pdf_bytes metaX emptyTable = Except.error ("KeyError: " ++ COLS_date) :=
  ⟨by decide, rfl⟩

/-- C3, amended: the build does not raise for a zero-row table whose
columns include the transaction-date column, and its summary fields are
then all zero with an itemized table of just the header row; a zero-row
table without the date column makes the date sort raise. -/
theorem C3_amended (m : CustMeta) (cols : List String) (hdate : COLS_date ∈ cols) :
    buildOk (build_statement_pdf_bytes m { cols := cols, rows := [] }) = true ∧
    stCredits (build_statement_pdf_bytes m { cols := cols, rows := [] }) = 0 ∧
    stDebits (build_statement_pdf_bytes m { cols := cols, rows := [] }) = 0 ∧
    stClosing (build_statement_pdf_bytes m { cols := cols, rows := [] }) = Cell.num 0 ∧
    stTableRows (build_statement_pdf_bytes m { cols := cols, rows := [] }) = [itemHeader] := by
  have h2 : (coerceColumn COLS_bal (coerceColumn COLS_amt
      ({ cols := cols, rows := [] } : Table))).rows = [] :=
    coerceColumn_rows_nil _ _ (coerceColumn_rows_nil _ _ rfl)
  have hs := sort_values_ok (coerceColumn COLS_bal (coerceColumn COLS_amt
      ({ cols := cols, rows := [] } : Table)))
    (by rw [coerceColumn_cols, coerceColumn_cols]; exact hdate)
  have hb := build_ok_fields m _ _ hs
  rw [hb]
  refine ⟨rfl, ?_, ?_, ?_, ?_⟩
  · simp [stCredits, totalCreditsOf, h2]
  · simp [stDebits, totalDebitsOf, h2]
  · simp [stClosing, closingOf, h2]
  · simp [stTableRows, sortRowsBy, h2]

/-- C3, witness: the empty table that keeps the date column. -/
theorem C3_witness :
    buildOk (build_statement_pdf_bytes metaX { cols := [COLS_date], rows := [] }) = true ∧
    stCredits (build_statement_pdf_bytes metaX { cols := [COLS_date], rows := [] }) = 0 ∧
    stDebits (build_statement_pdf_bytes metaX { cols := [COLS_date], rows := [] }) = 0 ∧
    stClosing (build_statement_pdf_bytes metaX { cols := [COLS_date], rows := [] }) = Cell.num 0 ∧
    stTableRows (build_statement_pdf_bytes metaX { cols := [COLS_date], rows := [] }) = [itemHeader] :=
  C3_amended metaX [COLS_date] (by decide)

/-- C4, counterexample.  With two customers and an encryption failure on
the first, the whole run aborts: no events at all are produced and the
second customer is never processed, although the same environment with a
working encryption step processes both. -/
theorem C4_counterexample :
    process_month envEncFail "2025-11" = { events := [], aborted := some "DocumentError" } ∧
    process_month envEncOk2 "2025-11" =
      { events := [Event.uploaded "C1" "emails-data/month=2025-11/C1_statement_2025-11.pdf",
                   Event.emailed "C1" "alice@example.com",
                   Event.uploaded "C2" "emails-data/month=2025-11/C2_statement_2025-11.pdf",
                   Event.emailed "C2" "alice@example.com"],
        aborted := none } := by
  decide

/-- C4, amended: an error raised while building one customer's PDF
aborts that customer only (one failure event, the rest of the run
unchanged), and upload or email errors abort only their own step (with
encryption succeeding, the customer still contributes its events and the
run continues whatever those outcomes are); but an encryption failure
(DocumentError) is raised outside every handler and aborts the whole
run, the remaining customers never being reached — and so does an
uncaught exception from assembly (the file listing or the date parse). -/
theorem C4_amended (env : Env) (month cust : String) (rest : List String) :
    (loadOk (assemble_customer_df (env.keysOf cust) env.load) = true →
     (asmTable (assemble_customer_df (env.keysOf cust) env.load)).rows.isEmpty = false →
     buildOk (build_statement_pdf_bytes
         (metaOfFirst cust month
           ((asmTable (assemble_customer_df (env.keysOf cust) env.load)).rows.headD []))
         (asmTable (assemble_customer_df (env.keysOf cust) env.load))) = false →
     processCustomers env month (cust :: rest) =
       { events := Event.buildFailed cust :: (processCustomers env month rest).events
         aborted := (processCustomers env month rest).aborted }) ∧
    (loadOk (assemble_customer_df (env.keysOf cust) env.load) = true →
     (asmTable (assemble_customer_df (env.keysOf cust) env.load)).rows.isEmpty = false →
     buildOk (build_statement_pdf_bytes
         (metaOfFirst cust month
           ((asmTable (assemble_customer_df (env.keysOf cust) env.load)).rows.headD []))
         (asmTable (assemble_customer_df (env.keysOf cust) env.load))) = true →
     excIsOk (env.encryptOutcome cust (password_for_customer
         ((asmTable (assemble_customer_df (env.keysOf cust) env.load)).rows.headD []) cust)) = true →
     ∃ evs, evs ≠ [] ∧ processCustomers env month (cust :: rest) =
       { events := evs ++ (processCustomers env month rest).events
         aborted := (processCustomers env month rest).aborted }) ∧
    (∀ e, loadOk (assemble_customer_df (env.keysOf cust) env.load) = true →
     (asmTable (assemble_customer_df (env.keysOf cust) env.load)).rows.isEmpty = false →
     buildOk (build_statement_pdf_bytes
         (metaOfFirst cust month
           ((asmTable (assemble_customer_df (env.keysOf cust) env.load)).rows.headD []))
         (asmTable (assemble_customer_df (env.keysOf cust) env.load))) = true →
     env.encryptOutcome cust (password_for_customer
         ((asmTable (assemble_customer_df (env.keysOf cust) env.load)).rows.headD []) cust)
       = Except.error e →
     processCustomers env month (cust :: rest) = { events := [], aborted := some e }) ∧
    (∀ e, assemble_customer_df (env.keysOf cust) env.load = Except.error e →
     processCustomers env month (cust :: rest) = { events := [], aborted := some e }) := by
  refine ⟨?_, ?_, ?_, ?_⟩
  · intro hload hne hbf
    have hone := processOne_buildFailed env month cust hload hne hbf
    simp [processCustomers, hone]
  · intro hload hne hbok hencB
    rcases processOne_encOk env month cust hload hne hbok hencB with ⟨evs, hone⟩
    exact ⟨evs, (processOne_events env month cust evs hone).1, by simp [processCustomers, hone]⟩
  · intro e hload hne hbok henc
    have hone := processOne_encErr env month cust e hload hne hbok henc
    simp [processCustomers, hone]
  · intro e hA
    have hone : processOne env month cust = Except.error e := by simp [processOne, hA]
    simp [processCustomers, hone]

/-- C4, witness: the encryption failure of `envEncFail` aborts the
two-customer run, and the working customer of `envOk` contributes its
events with the rest of the run unchanged. -/
theorem C4_witness :
    processCustomers envEncFail "2025-11" ("C1" :: ["C2"])
        = { events := [], aborted := some "DocumentError" } ∧
    ∃ evs, evs ≠ [] ∧ processCustomers envOk "2025-11" ("C1" :: []) =
      { events := evs ++ (processCustomers envOk "2025-11" []).events
        aborted := (processCustomers envOk "2025-11" []).aborted } :=
  ⟨(C4_amended envEncFail "2025-11" "C1" ["C2"]).2.2.1 "DocumentError"
     (by decide) (by decide) (by decide) (by rfl),
   (C4_amended envOk "2025-11" "C1" []).2.1 (by decide) (by decide) (by decide) (by rfl)⟩

/-- C5, counterexample.  When the parse raises, the function result is
that error and the scratch file is not deleted: `os.unlink` on source
line 86 is only reached on the success path. -/
theorem C5_counterexample :
    (load_parquet_from_s3 (Except.ok ()) (Except.error "ParseError")).1
        = Except.error "ParseError" ∧
    (load_parquet_from_s3 (Except.ok ()) (Except.error "ParseError")).2 = false :=
  ⟨rfl, rfl⟩

/-- C5, amended: the scratch file is deleted exactly on the successful
path; when the download or the parse raises, the unlink is skipped and
the file persists. -/
theorem C5_amended (download : Except String Unit) (parse : Except String Table) :
    (load_parquet_from_s3 download parse).2 = loadOk (load_parquet_from_s3 download parse).1 := by
  cases download <;> cases parse <;> rfl

/-- C6, counterexample.  With an absent phone and the two-character
customer id `"C1"` the password is `"C1"`, which does not have 4
characters. -/
theorem C6_counterexample :
    password_for_customer [] "C1" = "C1" ∧ (password_for_customer [] "C1").length ≠ 4 := by
  decide

/-- C6, amended: password derivation is a pure function of the row and
customer id following the stated rule, and both examples hold; the
password always has at most 4 characters, and exactly 4 whenever the
customer id has at least 4 characters (or the phone branch applies), but
an id shorter than 4 characters yields a shorter password. -/
theorem C6_amended :
    password_for_customer [(COLS_phone, Cell.str "1234567890")] "CUST0001" = "7890" ∧
    password_for_customer [(COLS_phone, Cell.str "")] "CUST0099" = "0099" ∧
    (∀ row cid, (password_for_customer row cid).length ≤ 4) ∧
    (∀ row cid, 4 ≤ cid.length → (password_for_customer row cid).length = 4) := by
  refine ⟨by decide, by decide, ?_, ?_⟩
  · intro row cid
    simp only [password_for_customer]
    split
    · exact pyLast_length_le 4 _
    · exact pyLast_length_le 4 _
  · intro row cid hc
    simp only [password_for_customer]
    split
    · rename_i hcond
      simp only [Bool.and_eq_true, decide_eq_true_eq] at hcond
      exact pyLast_length_eq 4 _ hcond.2
    · exact pyLast_length_eq 4 _ hc

/-- C6, witness instantiating the universally quantified parts. -/
theorem C6_witness :
    (password_for_customer [] "x").length ≤ 4 ∧
    (password_for_customer [] "ABCDE").length = 4 :=
  ⟨C6_amended.2.2.1 [] "x", C6_amended.2.2.2 [] "ABCDE" (by decide)⟩

/-- C7.  For every successful build, total credits are non-negative, the
reported (absolute) total debits are non-negative, and credits minus
reported debits equal the sum of all coerced amounts. -/
theorem C7_invariants (m : CustMeta) (t : Table)
    (hok : buildOk (build_statement_pdf_bytes m t) = true) :
    0 ≤ stCredits (build_statement_pdf_bytes m t) ∧
    0 ≤ |stDebits (build_statement_pdf_bytes m t)| ∧
    stCredits (build_statement_pdf_bytes m t) - |stDebits (build_statement_pdf_bytes m t)|
      = sum_of_amounts t := by
  have hdate := buildOk_date m t hok
  have hs := sort_values_ok (coerceColumn COLS_bal (coerceColumn COLS_amt t))
    (by rw [coerceColumn_cols, coerceColumn_cols]; exact hdate)
  rw [build_ok_fields m t _ hs]
  simp only [stCredits, stDebits]
  refine ⟨totalCredits_nonneg _, abs_nonneg _, ?_⟩
  rw [abs_of_nonpos (totalDebits_nonpos _), sub_neg_eq_add]
  exact totals_sum_eq t

/-- C7, witness at the two-row table. -/
theorem C7_witness :
    0 ≤ stCredits (build_statement_pdf_bytes metaX srcTblC1) ∧
    0 ≤ |stDebits (build_statement_pdf_bytes metaX srcTblC1)| ∧
    stCredits (build_statement_pdf_bytes metaX srcTblC1)
      - |stDebits (build_statement_pdf_bytes metaX srcTblC1)| = sum_of_amounts srcTblC1 :=
  C7_invariants metaX srcTblC1 (by decide)

/-- C8.  A customer whose (successful) file listing returns no keys, or
whose files all fail to load, gets the empty table from assembly as a
normal non-error result, and the orchestrator emits only a skip event
for that customer and continues with the remaining customers
unchanged. -/
theorem C8_empty_skip (env : Env) (month cust : String) (rest : List String)
    (keys : List String) (hk : env.keysOf cust = Except.ok keys)
    (hfiles : keys = [] ∨ ∀ k ∈ keys, (env.load k).toOption = none) :
    assemble_customer_df (env.keysOf cust) env.load = Except.ok emptyTable ∧
    processCustomers env month (cust :: rest) =
      { events := Event.skippedEmpty cust :: (processCustomers env month rest).events
        aborted := (processCustomers env month rest).aborted } := by
  have hasm : assemble_customer_df (env.keysOf cust) env.load = Except.ok emptyTable := by
    rw [hk]
    rcases hfiles with h | h
    · simp [assemble_customer_df, h]
    · by_cases hkk : keys = []
      · simp [assemble_customer_df, hkk]
      · have hnil : keys.filterMap (fun k => (env.load k).toOption) = [] :=
          List.filterMap_eq_nil_iff.mpr h
        simp [assemble_customer_df, hkk, hnil]
  have hone : processOne env month cust = Except.ok [Event.skippedEmpty cust] := by
    simp [processOne, hasm, emptyTable]
  refine ⟨hasm, ?_⟩
  simp [processCustomers, hone]

/-- C8, witness: one customer whose only file fails to load. -/
theorem C8_witness :
    assemble_customer_df (envNoFiles.keysOf "CX") envNoFiles.load = Except.ok emptyTable ∧
    processCustomers envNoFiles "2025-11" ("CX" :: []) =
      { events := Event.skippedEmpty "CX" :: (processCustomers envNoFiles "2025-11" []).events
        aborted := (processCustomers envNoFiles "2025-11" []).aborted } :=
  C8_empty_skip envNoFiles "2025-11" "CX" [] ["badkey"] rfl (Or.inr (by decide))

/-- C9.  The output key is the stated deterministic function of period
and customer, the concrete example holds, and every upload event of any
run uses exactly that key. -/
theorem C9_output_key :
    (∀ month cust, s3_key_for month cust
      = "emails-data/month=" ++ month ++ "/" ++ cust ++ "_statement_" ++ month ++ ".pdf") ∧
    s3_key_for "2025-11" "C1" = "emails-data/month=2025-11/C1_statement_2025-11.pdf" ∧
    (∀ env month cust key,
      Event.uploaded cust key ∈ (process_month env month).events → key = s3_key_for month cust) := by
  refine ⟨?_, by decide, ?_⟩
  · intro month cust
    rfl
  · intro env month cust key h
    exact processCustomers_uploaded env month env.customers cust key h

/-- C9, witness: the upload event of the end-to-end run uses the key. -/
theorem C9_witness :
    "emails-data/month=2025-11/C1_statement_2025-11.pdf" = s3_key_for "2025-11" "C1" :=
  C9_output_key.2.2 envOk "2025-11" "C1"
    "emails-data/month=2025-11/C1_statement_2025-11.pdf" (by decide)

/-- C10.  The build returns the caller table object unchanged: the
copy on source line 176 receives the column coercions, so after the call
the caller still holds the original (even non-numeric) amount cells
while the rendered rows show the coerced values. -/
theorem C10_caller_table_unchanged :
    (∀ m t, (build_statement_pdf_full m t).2 = t) ∧
    rowGet ((build_statement_pdf_full metaX tblAbc).2.rows.headD []) COLS_amt = Cell.str "abc" ∧
    stTableRows (build_statement_pdf_full metaX tblAbc).1
      = [itemHeader, ["2025-11-01", "x", "0.00", "100.00"]] :=
  ⟨fun _ _ => rfl, by decide, by decide⟩

end BhflGold
